import Mathlib

set_option maxRecDepth 40000

/-!
Shallow embedding of `src/index.ts` (robotframework-results-to-slack).

Text is modelled as `List Char`.  JavaScript `number` values flowing through
the program are always either an integer or `NaN` here (they are produced by
`parseInt`), so they are modelled as `Option ℤ` with `none` standing for
`NaN`; the transient non-integer values (the success ratio and the rate) are
unreduced fraction pairs `ℤ × ℤ`.  JS `Number` arithmetic is IEEE binary64:
every produced value is the exact result rounded to 53 significand bits,
nearest, ties to even.  That rounding is modelled executably by `flFrac`
(and `flInt` for integral results), and `parseInt`, `+`, `/` and `* 100` are
all routed through it, so the model reproduces the program's doubles bit for
bit on the normal range.  Outside the modelled range are only inputs whose
counts have hundreds of digits: magnitudes at or above `2^1024` overflow to
`±Infinity` in JS, and quotients below `2^-1022` go subnormal; no claim
concerns such inputs (`successRate` stays in the normal range whenever the
counts are below `2^53`).  `±Infinity` arising from `p/0` with `p ≠ 0` is
collapsed into `NaN` directly at the division: its only consumer is
`parseInt((·).toFixed(1))`, which maps `"Infinity"`/`"-Infinity"` to `NaN`
as well, so the collapse is observation-equivalent.
-/

/-- Character list of a string literal. -/
def str (s : String) : List Char := s.data

/-- Whitespace class used by the JS regex `\s` and by `parseInt` trimming
(the additional Unicode space code points never occur in the inputs
considered). -/
def jsIsSpace (c : Char) : Bool :=
  c = ' ' || c = '\t' || c = '\n' || c = '\r' || c = '\x0b' || c = '\x0c'

/-- Decimal digit `0`-`9` (by code point, as the regexes and `parseInt`
classify characters). -/
def isDigit09 (c : Char) : Bool := decide (48 ≤ c.toNat) && decide (c.toNat ≤ 57)

/-- Value of a decimal digit string (fold used by the `parseInt` model). -/
def digitsValN (l : List Char) : ℕ := l.foldl (fun a c => 10 * a + (c.toNat - 48)) 0

/-- Hexadecimal digit. -/
def isHexDig (c : Char) : Bool :=
  isDigit09 c || (decide ('a' ≤ c) && decide (c ≤ 'f')) || (decide ('A' ≤ c) && decide (c ≤ 'F'))

/-- Value of a hexadecimal digit. -/
def hexDigVal (c : Char) : ℕ :=
  if isDigit09 c then c.toNat - 48 else if decide ('a' ≤ c) then c.toNat - 87 else c.toNat - 55

/-- Value of a hexadecimal digit string. -/
def hexValN (l : List Char) : ℕ := l.foldl (fun a c => 16 * a + hexDigVal c) 0

/-- Scale a positive fraction up by doubling the numerator until
`n/d ≥ 2^52`, tracking in `k` how many halvings undo the scaling.  The fuel
1200 covers every exponent of the binary64 normal range. -/
def flUp : ℕ → ℤ → ℤ → ℤ → ℤ × ℤ × ℤ
  | 0, n, d, k => (n, d, k)
  | fuel + 1, n, d, k => if n < 2 ^ 52 * d then flUp fuel (2 * n) d (k + 1) else (n, d, k)

/-- Scale a positive fraction down by doubling the denominator until
`n/d < 2^53`, tracking the scaling in `k`. -/
def flDown : ℕ → ℤ → ℤ → ℤ → ℤ × ℤ × ℤ
  | 0, n, d, k => (n, d, k)
  | fuel + 1, n, d, k => if 2 ^ 53 * d ≤ n then flDown fuel n (2 * d) (k - 1) else (n, d, k)

/-- Round the positive rational `n/d` to the nearest IEEE binary64 value
(ties to even), returned as an unreduced fraction: scale into
`[2^52, 2^53)`, round the scaled value to an integer significand, undo the
scaling. -/
def flRound (n d : ℤ) : ℤ × ℤ :=
  let s1 := flDown 1200 n d 0
  let s2 := flUp 1200 s1.1 s1.2.1 s1.2.2
  let N := s2.1
  let D := s2.2.1
  let k := s2.2.2
  let m0 := N / D
  let r := N % D
  let m := if 2 * r < D then m0 else if D < 2 * r then m0 + 1
    else if m0 % 2 = 0 then m0 else m0 + 1
  if 0 ≤ k then (m, 2 ^ k.toNat) else (m * 2 ^ (-k).toNat, 1)

/-- Round the rational `a/b` (`b ≠ 0`, any signs) to the nearest binary64
value, as an unreduced fraction with positive denominator. -/
def flFrac (a b : ℤ) : ℤ × ℤ :=
  let n := if b < 0 then -a else a
  let d := if b < 0 then -b else b
  if n = 0 then (0, 1)
  else if n < 0 then (-(flRound (-n) d).1, (flRound (-n) d).2)
  else flRound n d

/-- Round an integer to the nearest binary64 value: exact below `2^53`,
otherwise rounded to 53 significand bits (so JS `parseInt` on
`9007199254740993` yields `9007199254740992`). -/
def flInt (v : ℤ) : ℤ := if v.natAbs < 2 ^ 53 then v else (flFrac v 1).1

/-- Longest decimal-digit prefix, `none` when there is no digit
(JS `parseInt` yields `NaN` then). -/
def parseDecPrefix (r : List Char) : Option ℕ :=
  let ds := r.takeWhile isDigit09
  if ds.isEmpty then none else some (digitsValN ds)

/-- Longest hexadecimal-digit prefix, `none` when there is no digit. -/
def parseHexPrefix (r : List Char) : Option ℕ :=
  let ds := r.takeWhile isHexDig
  if ds.isEmpty then none else some (hexValN ds)

/-- Unsigned part of JS `parseInt` with no explicit radix: a `0x`/`0X` prefix
selects base 16, otherwise base 10. -/
def parseUnsignedJs (r : List Char) : Option ℕ :=
  match r with
  | a :: c :: rest =>
    if a = '0' ∧ (c = 'x' ∨ c = 'X') then parseHexPrefix rest
    else parseDecPrefix (a :: c :: rest)
  | r => parseDecPrefix r

/-- JS `parseInt(s)`: trim leading whitespace, optional sign, then the longest
valid digit prefix; `NaN` (`none`) when no digit follows.  The mathematical
integer is rounded to a binary64 value (`flInt`), as the spec's ToNumber
conversion does. -/
def jsParseInt (s : List Char) : Option ℤ :=
  match s.dropWhile jsIsSpace with
  | [] => none
  | c :: r =>
    if c = '+' then (parseUnsignedJs r).map (fun n => flInt (n : ℤ))
    else if c = '-' then (parseUnsignedJs r).map (fun n => flInt (-(n : ℤ)))
    else (parseUnsignedJs (c :: r)).map (fun n => flInt (n : ℤ))

/-- Truncation toward zero of a rational, as JS `parseInt` applied to a
decimal numeral `d...d.d` keeps only the integer part (statement-level
companion of `truncDiv10`). -/
def jsTrunc (q : ℚ) : ℤ := if q < 0 then -(Int.floor (-q)) else Int.floor q

/-- JS `+` on integer-valued doubles (or `NaN`): the exact sum rounded to
binary64. -/
def jsAddI : Option ℤ → Option ℤ → Option ℤ
  | some a, some b => some (flInt (a + b))
  | _, _ => none

/-- JS `/` on integer-valued doubles (or `NaN`): the exact quotient rounded
to binary64, kept as an unreduced fraction; division by zero is collapsed to
`NaN` (see the module comment: `±Infinity` is unobservable downstream). -/
def jsDivFl : Option ℤ → Option ℤ → Option (ℤ × ℤ)
  | some a, some b => if b = 0 then none else some (flFrac a b)
  | _, _ => none

/-- JS `*` by an integer constant on a double-or-NaN value: the exact
product rounded to binary64. -/
def jsMulFl (x : Option (ℤ × ℤ)) (c : ℤ) : Option (ℤ × ℤ) :=
  x.map (fun p => flFrac (c * p.1) p.2)

/-- Nearest integer to `n / d` (`d ≠ 0`), ties toward `+∞`:
`⌊n/d + 1/2⌋ = ⌊(2n + d) / (2d)⌋`, computed by floor division after making
the denominator positive.  `roundFrac_eq_round` below connects this to
Mathlib's `round` on ℚ. -/
def roundFrac (n d : ℤ) : ℤ :=
  if d < 0 then Int.fdiv (2 * (-n) + (-d)) (2 * (-d)) else Int.fdiv (2 * n + d) (2 * d)

/-- Truncation toward zero of `r / 10` (JS `parseInt` reading the integer
part of a one-decimal numeral). -/
def truncDiv10 (r : ℤ) : ℤ := if r < 0 then -(Int.fdiv (-r) 10) else Int.fdiv r 10

/-- Model of `parseInt(x.toFixed(1))` from the `successRate` computation:
`toFixed(1)` rounds to the nearest multiple of 1/10 (ties toward `+∞`, the
ECMAScript "larger n" rule), and `parseInt` then truncates the printed
one-decimal numeral to its integer part.  `NaN` propagates. -/
def toFixed1ParseInt (x : Option (ℤ × ℤ)) : Option ℤ :=
  x.map (fun p => truncDiv10 (roundFrac (10 * p.1) p.2))

/-- The binary64 rate `(p/t) * 100` as the source computes it: the rounded
ratio, then the rounded product with 100. -/
def flRatio100 (p t : ℤ) : ℤ × ℤ := flFrac (100 * (flFrac p t).1) (flFrac p t).2

/-- The `successRate` the source computes from exactly-represented counts
`p` and total `t`: `parseInt(((p/t)*100).toFixed(1))` in binary64. -/
def codeRate (p t : ℤ) : ℤ :=
  truncDiv10 (roundFrac (10 * (flRatio100 p t).1) (flRatio100 p t).2)

/-- Leftmost-position scan of a regex of shape `(?<=pat)body`: positions are
tried left to right; at each position the lookbehind (given reversed, checked
against the reversed prefix) must hold and `matchAt` must succeed on the
suffix, otherwise the engine advances one character. -/
def scanLB (patRev : List Char) (matchAt : List Char → Option (List Char)) :
    List Char → List Char → Option (List Char)
  | _, [] => none
  | pre, c :: rest =>
    match (if patRev.isPrefixOf pre then matchAt (c :: rest) else none) with
    | some v => some v
    | none => scanLB patRev matchAt (c :: pre) rest

/-- Indices `k ≥ 1` of `run` holding a `"` character. -/
def quoteIdxs (run : List Char) : List ℕ :=
  (List.range run.length).filter (fun k => decide (1 ≤ k) && decide (run[k]? = some '"'))

/-- Largest index `k ≥ 1` of `run` holding `"`, if any. -/
def lastQuote (run : List Char) : Option ℕ := (quoteIdxs run).getLast?

/-- Body match of `[^\s]+(?=")` at a fixed position: the greedy run of
non-whitespace characters, backtracked to the longest nonempty prefix that is
immediately followed by a `"` (the `"` is itself non-whitespace, so the
candidate end positions are exactly the quote indices inside the run). -/
def matchVal (t : List Char) : Option (List Char) :=
  match lastQuote (t.takeWhile (fun c => !jsIsSpace c)) with
  | some k => some ((t.takeWhile (fun c => !jsIsSpace c)).take k)
  | none => none

/-- `getArg`'s regex `(?<=name=")[^\s]+(?=")` applied to the stat line:
first match, or `none` (the TS code then throws). -/
def getArg (line : List Char) (name : List Char) : Option (List Char) :=
  scanLB (name ++ str "=\"").reverse matchVal [] line

/-- Match of `<stat[^>]+>All Tests<\/stat>` anchored at the current position:
`[^>]+` cannot cross a `>`, so a successful match takes the maximal `>`-free
run after `<stat` and requires the literal `>All Tests</stat>` right after. -/
def statMatchAt (t : List Char) : Option (List Char) :=
  if (str "<stat").isPrefixOf t then
    let rest := t.drop 5
    let m := rest.takeWhile (fun c => c ≠ '>')
    if !m.isEmpty && (str ">All Tests</stat>").isPrefixOf (rest.drop m.length) then
      some (str "<stat" ++ m ++ str ">All Tests</stat>")
    else none
  else none

/-- `resultsXml.match(/<stat[^>]+>All Tests<\/stat>/)`: leftmost match. -/
def statLineMatch (xml : List Char) : Option (List Char) := xml.tails.findSome? statMatchAt

/-- Body match of `[^"]+(?=")` at a fixed position: the maximal `"`-free run,
which must be nonempty and stopped by an actual `"` (not by the end). -/
def genMatchAt (t : List Char) : Option (List Char) :=
  let run := t.takeWhile (fun c => c ≠ '"')
  if !run.isEmpty && decide (run.length < t.length) then some run else none

/-- `resultsXml.match(/(?<=generated=")[^"]+(?=")/)`. -/
def genMatch (xml : List Char) : Option (List Char) :=
  scanLB (str "generated=\"").reverse genMatchAt [] xml

/-- Gregorian leap year. -/
def isLeapYear (y : ℤ) : Bool := (y % 4 = 0 && ¬y % 100 = 0) || y % 400 = 0

/-- Days in a month. -/
def daysInMonth (y m : ℤ) : ℤ :=
  if m = 2 then (if isLeapYear y then 29 else 28)
  else if m = 4 ∨ m = 6 ∨ m = 9 ∨ m = 11 then 30 else 31

/-- Days from 1970-01-01 to the given civil date (Howard Hinnant's
`days_from_civil` formula, floor divisions). -/
def daysFromCivil (y m d : ℤ) : ℤ :=
  let y2 := if m ≤ 2 then y - 1 else y
  let era := Int.fdiv y2 400
  let yoe := y2 - era * 400
  let doy := Int.fdiv (153 * (if 2 < m then m - 3 else m + 9) + 2) 5 + d - 1
  let doe := yoe * 365 + Int.fdiv yoe 4 - Int.fdiv yoe 100 + doy
  era * 146097 + doe - 719468

/-- Digit character to integer. -/
def d2n (c : Char) : ℤ := (c.toNat : ℤ) - 48

/-- Model of `parse(g, "yyyyMMdd HH:mm:ss.SSS", new Date()).getTime()` from
the external date library, per its documented contract: a string in exactly
that shape with in-range fields parses to an instant (modelled in UTC; no
claim depends on the zone offset of a successfully parsed value), anything
else yields an invalid date whose `getTime()` is `NaN` (`none`); the call
never throws. -/
def parseTimestampMs (g : List Char) : Option ℤ :=
  match g with
  | [y1, y2, y3, y4, b1, b2, a1, a2, sp, h1, h2, c1, i1, i2, c2, e1, e2, dt, f1, f2, f3] =>
    if ([y1, y2, y3, y4, b1, b2, a1, a2, h1, h2, i1, i2, e1, e2, f1, f2, f3].all isDigit09)
        ∧ sp = ' ' ∧ c1 = ':' ∧ c2 = ':' ∧ dt = '.' then
      let y := 1000 * d2n y1 + 100 * d2n y2 + 10 * d2n y3 + d2n y4
      let mo := 10 * d2n b1 + d2n b2
      let dd := 10 * d2n a1 + d2n a2
      let hh := 10 * d2n h1 + d2n h2
      let mi := 10 * d2n i1 + d2n i2
      let ss := 10 * d2n e1 + d2n e2
      let ms := 100 * d2n f1 + 10 * d2n f2 + d2n f3
      if 1 ≤ mo ∧ mo ≤ 12 ∧ 1 ≤ dd ∧ dd ≤ daysInMonth y mo ∧ hh ≤ 23 ∧ mi ≤ 59 ∧ ss ≤ 59 then
        some (daysFromCivil y mo dd * 86400000 + hh * 3600000 + mi * 60000 + ss * 1000 + ms)
      else none
    else none
  | _ => none

/-- Error cases of `getStats`: the stat line missing (the TS function returns
`undefined` after `core.error`), or a named attribute missing (the TS
function throws `Error getting ${arg} from XML`). -/
inductive StatsErr where
  | noStatLine : StatsErr
  | missingAttr (name : List Char) : StatsErr
deriving DecidableEq, Repr

/-- The `Stats` record of the source, with JS numbers as integer-or-NaN. -/
structure Stats where
  passed : Option ℤ
  failed : Option ℤ
  skipped : Option ℤ
  successRate : Option ℤ
  timestamp : Option ℤ
deriving DecidableEq, Repr

deriving instance DecidableEq for Except

/-- `getStats(resultsXml)`. -/
def getStats (resultsXml : List Char) : Except StatsErr Stats :=
  match statLineMatch resultsXml with
  | none => .error .noStatLine
  | some line =>
    match getArg line (str "pass") with
    | none => .error (.missingAttr (str "pass"))
    | some vp =>
      match getArg line (str "fail") with
      | none => .error (.missingAttr (str "fail"))
      | some vf =>
        match getArg line (str "skip") with
        | none => .error (.missingAttr (str "skip"))
        | some vs =>
          let passed := jsParseInt vp
          let failed := jsParseInt vf
          let skipped := jsParseInt vs
          let successRate :=
            toFixed1ParseInt (jsMulFl (jsDivFl passed (jsAddI (jsAddI passed failed) skipped)) 100)
          let generated := (genMatch resultsXml).getD []
          .ok ⟨passed, failed, skipped, successRate, parseTimestampMs generated⟩

/-- JS `>` against a constant; false when the left side is `NaN`. -/
def jsGtB (x : Option ℤ) (b : ℤ) : Bool :=
  match x with
  | some v => decide (b < v)
  | none => false

/-- `getColor(stats)`. -/
def getColor (stats : Stats) : List Char :=
  if stats.successRate = some 100 then str "#2EB67D"
  else if jsGtB stats.successRate 80 then str "#ECB22E"
  else str "#E01E5A"

/-- One short field of the Slack attachment. -/
structure SlackField where
  title : List Char
  value : List Char
  short : Bool
deriving DecidableEq, Repr

/-- JS `Number.prototype.toString` on an integer-or-NaN value. -/
def optIntStr (x : Option ℤ) : List Char :=
  match x with
  | some n => (toString n).data
  | none => str "NaN"

/-- The four stat fields built by `sendStats`. -/
def statsFields (stats : Stats) : List SlackField :=
  [⟨str "*Passed:*", optIntStr stats.passed, true⟩,
   ⟨str "*Failed:*", optIntStr stats.failed, true⟩,
   ⟨str "*Skipped:*", optIntStr stats.skipped, true⟩,
   ⟨str "*Success Rate:*", optIntStr stats.successRate ++ str "%", true⟩]

/-- The attachment built by `sendStats`. -/
structure Attachment where
  color : List Char
  text : List Char
  mrkdwnIn : List (List Char)
  ts : Option ℤ
  fields : List SlackField
deriving DecidableEq, Repr

/-- The configuration the action reads through `core.getInput` (an external
collaborator); the four alert booleans are the `=== "true"` comparisons. -/
structure Config where
  slackChannel : List Char
  slackUsername : List Char
  slackIcon : List Char
  slackHeader : List Char
  alertChannelOnFailure : Bool
  alertChannelOnSkipped : Bool
  alertChannelOnSuccess : Bool
  alertChannelOnNoOutput : Bool
  noOutputFoundMessage : List Char
deriving DecidableEq, Repr

/-- The webhook payload handed to the delivery collaborator. -/
structure Envelope where
  channel : List Char
  username : List Char
  iconEmoji : List Char
  text : List Char
  attachments : List Attachment
deriving DecidableEq, Repr

/-- Observable outcome of one run: returned without sending, payload handed
to the webhook, or `core.setFailed` with a message. -/
inductive RunOutcome where
  | noMessage : RunOutcome
  | sent (envelope : Envelope) : RunOutcome
  | failed (message : List Char) : RunOutcome
deriving DecidableEq, Repr

/-- `sendSlackMessage(message, attachments)`: hands the envelope to the
webhook collaborator. -/
def sendSlackMessage (cfg : Config) (message : List Char) (attachments : List Attachment) :
    RunOutcome :=
  .sent ⟨cfg.slackChannel, cfg.slackUsername, cfg.slackIcon, message, attachments⟩

/-- The attachment `sendStats` builds. -/
def statsAttachment (cfg : Config) (stats : Stats) : Attachment :=
  ⟨getColor stats, cfg.slackHeader, [str "text", str "fields"], stats.timestamp,
    statsFields stats⟩

/-- `sendStats(stats)`; `runNumber` is `github.context.runNumber`. -/
def sendStats (cfg : Config) (runNumber : ℕ) (stats : Stats) : RunOutcome :=
  sendSlackMessage cfg (str "Robot Test Results #" ++ (toString runNumber).data)
    [statsAttachment cfg stats]

/-- The message `core.setFailed` receives on each `getStats` error path. -/
def errorMessage : StatsErr → List Char
  | .noStatLine => str "Error getting stats from XML"
  | .missingAttr a => str "Error getting " ++ a ++ str " from XML"

/-- `run()`, given the result of `getResults()` (`none` models the file
being absent or unreadable).  The source guards with `if (!resultsXml)`,
and the empty string is falsy in JS, so empty report text also takes the
no-output branch. -/
def run (results : Option (List Char)) (cfg : Config) (runNumber : ℕ) : RunOutcome :=
  match results with
  | none =>
    if cfg.alertChannelOnNoOutput then sendSlackMessage cfg cfg.noOutputFoundMessage []
    else .noMessage
  | some xml =>
    if xml = [] then
      if cfg.alertChannelOnNoOutput then sendSlackMessage cfg cfg.noOutputFoundMessage []
      else .noMessage
    else
      match getStats xml with
      | .error e => .failed (errorMessage e)
      | .ok stats => sendStats cfg runNumber stats

/-- One attribute of a summary record, for reasoning about records as
structured attribute sets. -/
structure Attr where
  name : List Char
  val : List Char
deriving DecidableEq, Repr

/-- Serialized `name="value"` attribute. -/
def mkAttr (a : Attr) : List Char := a.name ++ str "=\"" ++ a.val ++ str "\""

/-- Space-separated join. -/
def joinSpace : List (List Char) → List Char
  | [] => []
  | [x] => x
  | x :: y :: rest => x ++ ' ' :: joinSpace (y :: rest)

/-- Serialization of the attributes strictly before a distinguished one:
each is followed by its separating space. -/
def chunksBefore (pre : List (List Char)) : List Char :=
  (pre.map (fun y => y ++ [' '])).flatten

/-- Serialization of the attributes strictly after a distinguished one:
preceded by the separating space when nonempty. -/
def chunksAfter : List (List Char) → List Char
  | [] => []
  | y :: ys => ' ' :: joinSpace (y :: ys)

/-- A summary record with the given attribute list. -/
def mkStatLine (l : List Attr) : List Char :=
  str "<stat " ++ joinSpace (l.map mkAttr) ++ str ">All Tests</stat>"

/-- Positions of `s` at which the lookbehind for `pat` holds. -/
def lbPositions (s pat : List Char) : List ℕ :=
  (List.range (s.length + 1)).filter (fun j => pat.isSuffixOf (s.take j))

/-- Well-formed attribute value: nonempty, no whitespace, no quote. -/
def wfVal (v : List Char) : Prop :=
  v ≠ [] ∧ ∀ c ∈ v, jsIsSpace c = false ∧ c ≠ '"'

instance : DecidablePred wfVal := fun v => by
  unfold wfVal; infer_instance

/-- The spec's success rate rounded to exactly one decimal place. -/
def specRate1 (p f s : ℕ) : ℚ :=
  ((round (10 * ((100 * (p : ℚ)) / ((p : ℚ) + (f : ℚ) + (s : ℚ)))) : ℤ) : ℚ) / 10


/-- A configuration with all four alert switches off. -/
def cfg0 : Config :=
  ⟨str "channel", str "user", str "icon", str "header", false, false, false, false,
    str "No results found"⟩

/-- Scenario A report: all tests passed. -/
def xmlA : List Char := str "<stat pass=\"10\" fail=\"0\" skip=\"0\">All Tests</stat>"

/-- Scenario B report: 8 passed, 2 failed. -/
def xmlB : List Char := str "<stat pass=\"8\" fail=\"2\" skip=\"0\">All Tests</stat>"

/-- Report with success ratio 1/3. -/
def xmlThird : List Char := str "<stat pass=\"1\" fail=\"2\" skip=\"0\">All Tests</stat>"

/-- Report with pass=19, fail=1981: the exact rate is 0.95, the binary64
rate falls just below it. -/
def xml19 : List Char := str "<stat pass=\"19\" fail=\"1981\" skip=\"0\">All Tests</stat>"

/-- Degenerate report: zero tests. -/
def xmlZero : List Char := str "<stat pass=\"0\" fail=\"0\" skip=\"0\">All Tests</stat>"

/-- Malformed report with a negative fail count, giving a rate above 100. -/
def xmlNeg : List Char := str "<stat pass=\"5\" fail=\"-3\" skip=\"0\">All Tests</stat>"

/-- Report with no `generated` attribute. -/
def xmlNoGen : List Char := str "<stat pass=\"1\" fail=\"0\" skip=\"0\">All Tests</stat>"

/-- Report whose `generated` attribute does not parse as a timestamp. -/
def xmlBadTs : List Char :=
  str "<robot generated=\"yesterday\"><stat pass=\"1\" fail=\"0\" skip=\"0\">All Tests</stat></robot>"

/-- Document with no `All Tests` summary record at all. -/
def xmlNoStat : List Char := str "<robot><total>All Tests something</total></robot>"

/-- Scenario D record: the `fail` attribute is absent. -/
def xmlMissFail : List Char := str "<stat pass=\"10\" skip=\"0\">All Tests</stat>"

/-- Attribute list containing an extra attribute whose name ends in `pass`. -/
def l1shadow : List Attr :=
  [⟨str "xpass", str "7"⟩, ⟨str "pass", str "10"⟩, ⟨str "fail", str "0"⟩, ⟨str "skip", str "0"⟩]

/-- A permutation of `l1shadow`. -/
def l2shadow : List Attr :=
  [⟨str "pass", str "10"⟩, ⟨str "fail", str "0"⟩, ⟨str "skip", str "0"⟩, ⟨str "xpass", str "7"⟩]

/-- Well-formed attribute list with an extra benign attribute. -/
def l1perm : List Attr :=
  [⟨str "pass", str "10"⟩, ⟨str "fail", str "2"⟩, ⟨str "skip", str "3"⟩, ⟨str "env", str "linux"⟩]

/-- A permutation of `l1perm`. -/
def l2perm : List Attr :=
  [⟨str "env", str "linux"⟩, ⟨str "skip", str "3"⟩, ⟨str "fail", str "2"⟩, ⟨str "pass", str "10"⟩]

/-- Code-point bounds of a decimal digit. -/
theorem digit_toNat {c : Char} (h : isDigit09 c = true) : 48 ≤ c.toNat ∧ c.toNat ≤ 57 := by
  unfold isDigit09 at h
  rw [Bool.and_eq_true, decide_eq_true_iff, decide_eq_true_iff] at h
  exact h

/-- A digit is not whitespace. -/
theorem digit_not_space {c : Char} (h : isDigit09 c = true) : jsIsSpace c = false := by
  have hb := digit_toNat h
  unfold jsIsSpace
  have h1 : c ≠ ' ' := fun he => by subst he; exact absurd hb.1 (by decide)
  have h2 : c ≠ '\t' := fun he => by subst he; exact absurd hb.1 (by decide)
  have h3 : c ≠ '\n' := fun he => by subst he; exact absurd hb.1 (by decide)
  have h4 : c ≠ '\r' := fun he => by subst he; exact absurd hb.1 (by decide)
  have h5 : c ≠ '\x0b' := fun he => by subst he; exact absurd hb.1 (by decide)
  have h6 : c ≠ '\x0c' := fun he => by subst he; exact absurd hb.1 (by decide)
  simp [h1, h2, h3, h4, h5, h6]

/-- A digit is not a quote, a sign, or a radix marker. -/
theorem digit_not_special {c : Char} (h : isDigit09 c = true) :
    c ≠ '"' ∧ c ≠ '+' ∧ c ≠ '-' ∧ c ≠ 'x' ∧ c ≠ 'X' := by
  have hb := digit_toNat h
  refine ⟨?_, ?_, ?_, ?_, ?_⟩ <;>
    exact fun he => by subst he; first
      | exact absurd hb.1 (by decide)
      | exact absurd hb.2 (by decide)

/-- `takeWhile` passes over a block of satisfying elements. -/
theorem takeWhile_append_all (p : Char → Bool) (v l : List Char)
    (hv : ∀ c ∈ v, p c = true) : (v ++ l).takeWhile p = v ++ l.takeWhile p := by
  induction v with
  | nil => simp
  | cons c cs ih =>
    have hc : p c = true := hv c (by simp)
    simp only [List.cons_append, List.takeWhile_cons, hc, if_true]
    rw [ih (fun d hd => hv d (by simp [hd]))]

/-- `takeWhile` keeps a list all of whose elements satisfy the predicate. -/
theorem takeWhile_all (p : Char → Bool) (v : List Char)
    (hv : ∀ c ∈ v, p c = true) : v.takeWhile p = v := by
  have := takeWhile_append_all p v [] hv
  simpa using this

/-- A list is a `isPrefixOf` of itself extended on the right. -/
theorem isPrefixOf_self_append (l r : List Char) : l.isPrefixOf (l ++ r) = true := by
  induction l with
  | nil => simp [List.isPrefixOf]
  | cons c cs ih => simp [List.isPrefixOf, ih]

/-- A list is a `isSuffixOf` of itself extended on the left. -/
theorem isSuffixOf_append_self (l r : List Char) : l.isSuffixOf (r ++ l) = true := by
  show l.reverse.isPrefixOf (r ++ l).reverse = true
  rw [List.reverse_append]
  exact isPrefixOf_self_append _ _

/-- The scan of a lookbehind regex returns the match at position `J` when no
earlier position satisfies the lookbehind and position `J` matches. -/
theorem scanLB_first (patRev : List Char) (matchAt : List Char → Option (List Char))
    (hnil : matchAt [] = none) (v : List Char) :
    ∀ (t pre : List Char) (J : ℕ), J ≤ t.length →
      (∀ i, i < J → patRev.isPrefixOf ((t.take i).reverse ++ pre) = false) →
      patRev.isPrefixOf ((t.take J).reverse ++ pre) = true →
      matchAt (t.drop J) = some v →
      scanLB patRev matchAt pre t = some v := by
  intro t
  induction t with
  | nil =>
    intro pre J hJ _ _ hm
    have hJ0 : J = 0 := Nat.le_zero.mp hJ
    subst hJ0
    rw [List.drop_nil, hnil] at hm
    exact absurd hm (by simp)
  | cons c rest ih =>
    intro pre J hJ hlb hvJ hm
    cases J with
    | zero =>
      simp only [List.take_zero, List.reverse_nil, List.nil_append] at hvJ
      simp only [List.drop_zero] at hm
      simp [scanLB, hvJ, hm]
    | succ J2 =>
      have h0 := hlb 0 (Nat.succ_pos J2)
      simp only [List.take_zero, List.reverse_nil, List.nil_append] at h0
      have hstep : scanLB patRev matchAt pre (c :: rest) =
          scanLB patRev matchAt (c :: pre) rest := by
        simp [scanLB, h0]
      rw [hstep]
      refine ih (c :: pre) J2 (Nat.succ_le_succ_iff.mp (by simpa using hJ)) ?_ ?_ ?_
      · intro i hi
        have := hlb (i + 1) (Nat.succ_lt_succ hi)
        simpa [List.take_succ_cons, List.reverse_cons, List.append_assoc] using this
      · simpa [List.take_succ_cons, List.reverse_cons, List.append_assoc] using hvJ
      · simpa [List.drop_succ_cons] using hm

/-- Filtering `range n` by a predicate that holds exactly at `K < n` gives
the singleton `[K]`. -/
theorem filter_range_eq_single (p : ℕ → Bool) (K : ℕ) :
    ∀ n : ℕ, K < n → p K = true → (∀ k, p k = true → k = K) →
      (List.range n).filter p = [K] := by
  intro n
  induction n with
  | zero => intro h; exact absurd h (Nat.not_lt_zero K)
  | succ n ih =>
    intro hKn hpK huniq
    rw [List.range_succ, List.filter_append]
    rcases Nat.lt_succ_iff_lt_or_eq.mp hKn with h | h
    · have hpn : p n = false := by
        cases hpn : p n with
        | false => rfl
        | true => exact absurd (huniq n hpn) (by omega)
      rw [ih h hpK huniq]
      simp [List.filter, hpn]
    · subst h
      have hnil2 : (List.range K).filter p = [] := by
        rw [List.filter_eq_nil_iff]
        intro a ha hpa
        rw [huniq a hpa] at ha
        exact absurd (List.mem_range.mp ha) (lt_irrefl K)
      rw [hnil2]
      simp [List.filter, hpK]

/-- The value matcher at the start of `v"…`, for a well-formed value `v`
whose following context contains no quote in its leading non-whitespace run,
returns exactly `v`. -/
theorem matchVal_decomp (v w : List Char) (hne : v ≠ [])
    (hv : ∀ c ∈ v, jsIsSpace c = false ∧ c ≠ '"')
    (hw : ∀ c ∈ w.takeWhile (fun c => !jsIsSpace c), c ≠ '"') :
    matchVal (v ++ '"' :: w) = some v := by
  have hrun : (v ++ '"' :: w).takeWhile (fun c => !jsIsSpace c)
      = v ++ '"' :: w.takeWhile (fun c => !jsIsSpace c) := by
    rw [takeWhile_append_all _ _ _ (fun c hc => by simp [(hv c hc).1])]
    congr 1
  have hKn : v.length < (v ++ '"' :: w.takeWhile (fun c => !jsIsSpace c)).length := by
    simp
  have hpK : (decide (1 ≤ v.length) &&
      decide ((v ++ '"' :: w.takeWhile (fun c => !jsIsSpace c))[v.length]? = some '"')) = true := by
    rw [Bool.and_eq_true, decide_eq_true_iff, decide_eq_true_iff]
    constructor
    · exact List.length_pos.mpr hne
    · rw [List.getElem?_append_right (le_refl v.length)]
      simp
  have huniq : ∀ k, (decide (1 ≤ k) &&
      decide ((v ++ '"' :: w.takeWhile (fun c => !jsIsSpace c))[k]? = some '"')) = true →
      k = v.length := by
    intro k hk
    rw [Bool.and_eq_true, decide_eq_true_iff, decide_eq_true_iff] at hk
    obtain ⟨hk1, hk2⟩ := hk
    rcases lt_trichotomy k v.length with h | h | h
    · rw [List.getElem?_append] at hk2
      rw [if_pos h] at hk2
      have := List.getElem?_mem hk2
      exact absurd rfl ((hv _ this).2)
    · exact h
    · exfalso
      rw [List.getElem?_append_right (le_of_lt h)] at hk2
      obtain ⟨j, hj⟩ : ∃ j, k - v.length = j + 1 := ⟨k - v.length - 1, by omega⟩
      rw [hj] at hk2
      simp only [List.getElem?_cons_succ] at hk2
      have := List.getElem?_mem hk2
      exact absurd rfl (hw _ this)
  have hlq : lastQuote ((v ++ '"' :: w).takeWhile (fun c => !jsIsSpace c)) = some v.length := by
    rw [hrun]
    unfold lastQuote quoteIdxs
    rw [filter_range_eq_single _ v.length _ hKn hpK huniq]
    rfl
  unfold matchVal
  rw [hlq]
  show some (((v ++ '"' :: w).takeWhile (fun c => !jsIsSpace c)).take v.length) = some v
  rw [hrun, List.take_left]

/-- `joinSpace` of a list known to be nonempty. -/
theorem joinSpace_cons_ne (x : List Char) (l : List (List Char)) (h : l ≠ []) :
    joinSpace (x :: l) = x ++ ' ' :: joinSpace l := by
  cases l with
  | nil => exact absurd rfl h
  | cons y ys => rfl

/-- Decomposition of `joinSpace` around a distinguished element. -/
theorem joinSpace_decomp (pre : List (List Char)) (x : List Char) (post : List (List Char)) :
    joinSpace (pre ++ x :: post) = chunksBefore pre ++ (x ++ chunksAfter post) := by
  induction pre with
  | nil =>
    cases post with
    | nil => simp [joinSpace, chunksBefore, chunksAfter]
    | cons y ys =>
      show joinSpace (x :: y :: ys) = chunksBefore [] ++ (x ++ chunksAfter (y :: ys))
      rw [joinSpace_cons_ne x (y :: ys) (by simp)]
      simp [chunksBefore, chunksAfter]
  | cons z pre2 ih =>
    have hne2 : pre2 ++ x :: post ≠ [] := by cases pre2 <;> simp
    rw [List.cons_append, joinSpace_cons_ne z _ hne2, ih]
    simp [chunksBefore, List.append_assoc]

/-- Decomposition of a serialized record around a distinguished attribute. -/
theorem mkStatLine_decomp (pre post : List Attr) (a : Attr) :
    mkStatLine (pre ++ a :: post) =
      ((str "<stat " ++ chunksBefore (pre.map mkAttr)) ++ (a.name ++ str "=\"")) ++
        (a.val ++ '"' :: (chunksAfter (post.map mkAttr) ++ str ">All Tests</stat>")) := by
  unfold mkStatLine
  rw [List.map_append, List.map_cons, joinSpace_decomp]
  unfold mkAttr
  rw [show str "\"" = ['"'] from rfl]
  simp [List.append_assoc]

/-- The leading non-whitespace run of the context following a serialized
attribute value contains no quote. -/
theorem chunksAfter_no_quote (post : List Attr) :
    ∀ c ∈ (chunksAfter (post.map mkAttr) ++
      str ">All Tests</stat>").takeWhile (fun c => !jsIsSpace c), c ≠ '"' := by
  cases post with
  | nil => decide
  | cons y ys =>
    intro c hc
    rw [List.map_cons] at hc
    rw [show chunksAfter (mkAttr y :: List.map mkAttr ys) =
      ' ' :: joinSpace (mkAttr y :: List.map mkAttr ys) from rfl] at hc
    rw [List.cons_append] at hc
    rw [show (' ' :: (joinSpace (mkAttr y :: List.map mkAttr ys) ++
      str ">All Tests</stat>")).takeWhile (fun c => !jsIsSpace c) = [] from rfl] at hc
    exact absurd hc (List.not_mem_nil c)

/-- On a serialized record in which the lookbehind pattern of attribute `t`
matches at exactly one position, `getArg` extracts the value of the
(unique) attribute named `t`. -/
theorem getArg_mkStatLine (l : List Attr) (t v : List Char)
    (hmem : (⟨t, v⟩ : Attr) ∈ l) (hwf : wfVal v)
    (huniq : (lbPositions (mkStatLine l) (t ++ str "=\"")).length = 1) :
    getArg (mkStatLine l) t = some v := by
  obtain ⟨pre, post, hl⟩ := List.append_of_mem hmem
  rw [hl] at huniq ⊢
  have hdecomp : mkStatLine (pre ++ (⟨t, v⟩ : Attr) :: post) =
      ((str "<stat " ++ chunksBefore (pre.map mkAttr)) ++ (t ++ str "=\"")) ++
        (v ++ '"' :: (chunksAfter (post.map mkAttr) ++ str ">All Tests</stat>")) :=
    mkStatLine_decomp pre post ⟨t, v⟩
  have hJle : ((str "<stat " ++ chunksBefore (pre.map mkAttr)) ++ (t ++ str "=\"")).length ≤
      (mkStatLine (pre ++ (⟨t, v⟩ : Attr) :: post)).length := by
    rw [hdecomp]
    simp
  have hlbJ : (t ++ str "=\"").isSuffixOf
      ((mkStatLine (pre ++ (⟨t, v⟩ : Attr) :: post)).take
        ((str "<stat " ++ chunksBefore (pre.map mkAttr)) ++ (t ++ str "=\"")).length) = true := by
    rw [hdecomp, List.take_left]
    exact isSuffixOf_append_self _ _
  have hJmem : ((str "<stat " ++ chunksBefore (pre.map mkAttr)) ++ (t ++ str "=\"")).length ∈
      lbPositions (mkStatLine (pre ++ (⟨t, v⟩ : Attr) :: post)) (t ++ str "=\"") := by
    unfold lbPositions
    rw [List.mem_filter]
    exact ⟨List.mem_range.mpr (by omega), hlbJ⟩
  obtain ⟨K, hK⟩ := List.length_eq_one.mp huniq
  have hKJ : K = ((str "<stat " ++ chunksBefore (pre.map mkAttr)) ++ (t ++ str "=\"")).length := by
    rw [hK] at hJmem
    simpa using (List.mem_singleton.mp hJmem).symm
  rw [hKJ] at hK
  have hlb_not : ∀ i, i < ((str "<stat " ++ chunksBefore (pre.map mkAttr)) ++
      (t ++ str "=\"")).length →
      (t ++ str "=\"").isSuffixOf ((mkStatLine (pre ++ (⟨t, v⟩ : Attr) :: post)).take i) = false := by
    intro i hi
    cases hcase : (t ++ str "=\"").isSuffixOf
        ((mkStatLine (pre ++ (⟨t, v⟩ : Attr) :: post)).take i) with
    | false => rfl
    | true =>
      exfalso
      have hmem2 : i ∈ lbPositions (mkStatLine (pre ++ (⟨t, v⟩ : Attr) :: post))
          (t ++ str "=\"") := by
        unfold lbPositions
        rw [List.mem_filter]
        exact ⟨List.mem_range.mpr (by omega), hcase⟩
      rw [hK] at hmem2
      rw [List.mem_singleton] at hmem2
      omega
  have hmatch : matchVal ((mkStatLine (pre ++ (⟨t, v⟩ : Attr) :: post)).drop
      ((str "<stat " ++ chunksBefore (pre.map mkAttr)) ++ (t ++ str "=\"")).length) = some v := by
    rw [hdecomp, List.drop_left]
    exact matchVal_decomp v _ hwf.1 hwf.2 (chunksAfter_no_quote post)
  unfold getArg
  refine scanLB_first (t ++ str "=\"").reverse matchVal rfl v
    (mkStatLine (pre ++ (⟨t, v⟩ : Attr) :: post)) []
    ((str "<stat " ++ chunksBefore (pre.map mkAttr)) ++ (t ++ str "=\"")).length hJle ?_ ?_ ?_
  · intro i hi
    rw [List.append_nil]
    exact hlb_not i hi
  · rw [List.append_nil]
    exact hlbJ
  · exact hmatch

/-- `parseInt` on a nonempty all-digit string returns its decimal value
rounded to binary64. -/
theorem jsParseInt_digits (v : List Char) (hne : v ≠ [])
    (hd : ∀ c ∈ v, isDigit09 c = true) :
    jsParseInt v = some (flInt ((digitsValN v : ℕ) : ℤ)) := by
  obtain ⟨c, cs, rfl⟩ := List.exists_cons_of_ne_nil hne
  have hc := hd c (by simp)
  have hspec := digit_not_special hc
  have hdrop : (c :: cs).dropWhile jsIsSpace = c :: cs := by
    rw [List.dropWhile_cons, digit_not_space hc]
    simp
  have hdec : parseDecPrefix (c :: cs) = some (digitsValN (c :: cs)) := by
    unfold parseDecPrefix
    rw [takeWhile_all _ _ hd]
    simp
  have huns : parseUnsignedJs (c :: cs) = some (digitsValN (c :: cs)) := by
    cases cs with
    | nil => exact hdec
    | cons c2 cs2 =>
      have hc2 := digit_not_special (hd c2 (by simp))
      show (if c = '0' ∧ (c2 = 'x' ∨ c2 = 'X') then parseHexPrefix cs2
        else parseDecPrefix (c :: c2 :: cs2)) = some (digitsValN (c :: c2 :: cs2))
      rw [if_neg (by
        rintro ⟨-, h | h⟩
        · exact absurd h hc2.2.2.2.1
        · exact absurd h hc2.2.2.2.2)]
      exact hdec
  unfold jsParseInt
  rw [hdrop]
  simp only [if_neg hspec.2.1, if_neg hspec.2.2.1]
  rw [huns]
  rfl

/-- `roundFrac` agrees with rounding the exact rational quotient (ties
toward `+∞`). -/
theorem roundFrac_eq_round (n d : ℤ) (hd : 0 < d) :
    roundFrac n d = round ((n : ℚ) / (d : ℚ)) := by
  unfold roundFrac
  rw [if_neg (by omega : ¬d < 0), round_eq]
  have h2d : (0:ℤ) < 2 * d := by omega
  have hZ : ((2*d).toNat : ℤ) = 2*d := Int.toNat_of_nonneg (le_of_lt h2d)
  have heq : (n:ℚ)/(d:ℚ) + 1/2 = ((2*n + d : ℤ) : ℚ) / (((2*d).toNat : ℕ) : ℚ) := by
    have hcast : (((2*d).toNat : ℕ) : ℚ) = ((2*d : ℤ) : ℚ) := by exact_mod_cast hZ
    rw [hcast]
    have hdq : (d:ℚ) ≠ 0 := by
      simpa using (by omega : d ≠ 0)
    push_cast
    field_simp
    ring
  rw [heq, Rat.floor_intCast_div_natCast]
  rw [Int.fdiv_eq_ediv _ (le_of_lt h2d)]
  congr 1
  omega

/-- `truncDiv10` agrees with truncating the exact rational `r / 10`. -/
theorem truncDiv10_eq (r : ℤ) : truncDiv10 r = jsTrunc ((r : ℚ) / 10) := by
  unfold truncDiv10 jsTrunc
  have h10 : ((10:ℕ) : ℚ) = (10 : ℚ) := by norm_num
  rcases lt_or_ge r 0 with h | h
  · rw [if_pos h, if_pos (by
      apply div_neg_of_neg_of_pos
      · exact_mod_cast h
      · norm_num)]
    congr 1
    rw [show -((r:ℚ)/10) = ((-r : ℤ) : ℚ) / ((10:ℕ) : ℚ) from by push_cast; ring]
    rw [Rat.floor_intCast_div_natCast, Int.fdiv_eq_ediv _ (by norm_num)]
    norm_num
  · rw [if_neg (by omega : ¬r < 0), if_neg (by
      rw [not_lt]
      apply div_nonneg
      · exact_mod_cast h
      · norm_num)]
    rw [show (r:ℚ)/10 = ((r : ℤ) : ℚ) / ((10:ℕ) : ℚ) from by push_cast; ring]
    rw [Rat.floor_intCast_div_natCast, Int.fdiv_eq_ediv _ (by norm_num)]
    norm_num

/-- Unfolding lemma for `jsAddI` on present values. -/
theorem jsAddI_some (a b : ℤ) : jsAddI (some a) (some b) = some (flInt (a + b)) := rfl

/-- Unfolding lemma for `jsDivFl` on present values. -/
theorem jsDivFl_some (a b : ℤ) :
    jsDivFl (some a) (some b) = if b = 0 then none else some (flFrac a b) := rfl

/-- Integers below `2^53` are exact binary64 values. -/
theorem flInt_small (v : ℤ) (h : v.natAbs < 2 ^ 53) : flInt v = v := by
  unfold flInt
  rw [if_pos h]

/-- Natural counts below `2^53` parse to themselves. -/
theorem flInt_natCast_small (n : ℕ) (h : n < 2 ^ 53) : flInt ((n : ℕ) : ℤ) = (n : ℤ) :=
  flInt_small _ (by simpa using h)

/-- A document with a summary record is nonempty (so it is truthy in JS). -/
theorem statLine_ne_nil {xml r : List Char} (h : statLineMatch xml = some r) : xml ≠ [] := by
  intro he
  subst he
  rw [show statLineMatch ([] : List Char) = none from rfl] at h
  exact Option.noConfusion h

/-- A document from which stats extract is nonempty. -/
theorem getStats_ne_nil {xml : List Char} {st : Stats} (h : getStats xml = .ok st) :
    xml ≠ [] := by
  intro he
  subst he
  rw [show getStats ([] : List Char) = .error .noStatLine from rfl] at h
  exact Except.noConfusion h

/-- The `successRate` pipeline on sums that binary64 represents exactly
equals `codeRate` of the count and the total. -/
theorem successRate_pipeline (p f s : ℤ)
    (hpf : (p + f).natAbs < 2 ^ 53) (hpfs : (p + f + s).natAbs < 2 ^ 53)
    (hne : p + f + s ≠ 0) :
    toFixed1ParseInt (jsMulFl (jsDivFl (some p)
      (jsAddI (jsAddI (some p) (some f)) (some s))) 100)
      = some (codeRate p (p + f + s)) := by
  rw [jsAddI_some, flInt_small _ hpf, jsAddI_some, flInt_small _ hpfs,
    jsDivFl_some, if_neg hne]
  rfl

/-- Claim C1 (counterexample): for the scenario-A report (pass=10, fail=0,
skip=0) with all four alert booleans false, the run is not skipped: the full
stats payload is handed to the delivery collaborator. -/
theorem C1_counterexample :
    run (some xmlA) cfg0 1 =
      .sent ⟨str "channel", str "user", str "icon", str "Robot Test Results #1",
        [⟨str "#2EB67D", str "header", [str "text", str "fields"], none,
          [⟨str "*Passed:*", str "10", true⟩, ⟨str "*Failed:*", str "0", true⟩,
           ⟨str "*Skipped:*", str "0", true⟩, ⟨str "*Success Rate:*", str "100%", true⟩]⟩]⟩ ∧
    run (some xmlA) cfg0 1 ≠ .noMessage := by
  decide

/-- Claim C1 (amended): whenever stats extraction succeeds the payload is
always handed to the delivery collaborator, for every configuration — the
success/failure/skip alert booleans are never consulted. -/
theorem C1_stats_always_sent (xml : List Char) (st : Stats) (cfg : Config) (n : ℕ)
    (h : getStats xml = .ok st) :
    run (some xml) cfg n = .sent ⟨cfg.slackChannel, cfg.slackUsername, cfg.slackIcon,
      str "Robot Test Results #" ++ (toString n).data, [statsAttachment cfg st]⟩ := by
  simp only [run]
  rw [if_neg (getStats_ne_nil h), h]
  rfl

/-- Claim C1 (witness): the amended statement at the scenario-A input. -/
theorem C1_stats_always_sent_witness :
    getStats xmlA = .ok ⟨some 10, some 0, some 0, some 100, none⟩ ∧
    run (some xmlA) cfg0 2 = .sent ⟨cfg0.slackChannel, cfg0.slackUsername, cfg0.slackIcon,
      str "Robot Test Results #" ++ (toString 2).data,
      [statsAttachment cfg0 ⟨some 10, some 0, some 0, some 100, none⟩]⟩ :=
  ⟨by decide,
    C1_stats_always_sent xmlA ⟨some 10, some 0, some 0, some 100, none⟩ cfg0 2 (by decide)⟩

/-- Claim C2 (counterexample): for pass=1, fail=2, skip=0 the spec's
one-decimal rate is 33.3, but the code computes the integer 33 and the
payload field reads `33%`, not `33.3%`. -/
theorem C2_counterexample :
    (getStats xmlThird = .ok ⟨some 1, some 2, some 0, some 33, none⟩ ∧
      specRate1 1 2 0 = 333 / 10 ∧
      ((33 : ℤ) : ℚ) ≠ 333 / 10 ∧
      optIntStr (some 33) ++ str "%" = str "33%" ∧
      str "33%" ≠ str "33.3%") ∧
    (getStats xml19 = .ok ⟨some 19, some 1981, some 0, some 0, none⟩ ∧
      jsTrunc (specRate1 19 1981 0) = 1 ∧
      (0 : ℤ) ≠ 1) := by
  refine ⟨⟨by decide, ?_, by norm_num, by decide, by decide⟩, by decide, ?_, by decide⟩
  · unfold specRate1
    norm_num [round_eq]
  · unfold specRate1 jsTrunc
    norm_num [round_eq]

/-- Claim C2 (amended): extraction from a summary record whose three
attributes carry digit strings with total below `2^53` yields exactly those
counts, and a `successRate` equal to the integer truncation of the
one-decimal rounding of the binary64 evaluation of `(p/(p+f+s))*100`
(`codeRate`); the payload field carries that integer with a trailing percent
sign and no decimal. -/
theorem C2_extraction (xml r vp vf vs : List Char)
    (hline : statLineMatch xml = some r)
    (hp : getArg r (str "pass") = some vp)
    (hf : getArg r (str "fail") = some vf)
    (hs : getArg r (str "skip") = some vs)
    (hdp : vp ≠ [] ∧ ∀ c ∈ vp, isDigit09 c = true)
    (hdf : vf ≠ [] ∧ ∀ c ∈ vf, isDigit09 c = true)
    (hds : vs ≠ [] ∧ ∀ c ∈ vs, isDigit09 c = true)
    (hpos : 0 < digitsValN vp + digitsValN vf + digitsValN vs)
    (hbound : digitsValN vp + digitsValN vf + digitsValN vs < 2 ^ 53) :
    getStats xml = .ok ⟨some (digitsValN vp), some (digitsValN vf), some (digitsValN vs),
      some (codeRate (digitsValN vp)
        ((digitsValN vp : ℤ) + (digitsValN vf : ℤ) + (digitsValN vs : ℤ))),
      parseTimestampMs ((genMatch xml).getD [])⟩ ∧
    statsFields ⟨some (digitsValN vp), some (digitsValN vf), some (digitsValN vs),
      some (codeRate (digitsValN vp)
        ((digitsValN vp : ℤ) + (digitsValN vf : ℤ) + (digitsValN vs : ℤ))),
      parseTimestampMs ((genMatch xml).getD [])⟩ =
      [⟨str "*Passed:*", optIntStr (some (digitsValN vp)), true⟩,
       ⟨str "*Failed:*", optIntStr (some (digitsValN vf)), true⟩,
       ⟨str "*Skipped:*", optIntStr (some (digitsValN vs)), true⟩,
       ⟨str "*Success Rate:*",
         optIntStr (some (codeRate (digitsValN vp)
           ((digitsValN vp : ℤ) + (digitsValN vf : ℤ) + (digitsValN vs : ℤ)))) ++
           str "%", true⟩] := by
  constructor
  · simp only [getStats, hline, hp, hf, hs,
      jsParseInt_digits vp hdp.1 hdp.2, jsParseInt_digits vf hdf.1 hdf.2,
      jsParseInt_digits vs hds.1 hds.2]
    rw [flInt_natCast_small _ (by omega), flInt_natCast_small _ (by omega),
      flInt_natCast_small _ (by omega),
      successRate_pipeline _ _ _ (by omega) (by omega) (by omega)]
  · rfl

/-- Claim C2 (witness): the amended statement at the scenario-B input
(pass=8, fail=2, skip=0), where `codeRate` evaluates to 80. -/
theorem C2_extraction_witness :
    (statLineMatch xmlB = some xmlB) ∧
    (getArg xmlB (str "pass") = some (str "8")) ∧
    (getArg xmlB (str "fail") = some (str "2")) ∧
    (getArg xmlB (str "skip") = some (str "0")) ∧
    (0 < digitsValN (str "8") + digitsValN (str "2") + digitsValN (str "0")) ∧
    (digitsValN (str "8") + digitsValN (str "2") + digitsValN (str "0") < 2 ^ 53) ∧
    codeRate 8 10 = 80 ∧
    (getStats xmlB = .ok ⟨some (digitsValN (str "8")), some (digitsValN (str "2")),
      some (digitsValN (str "0")),
      some (codeRate (digitsValN (str "8"))
        ((digitsValN (str "8") : ℤ) + (digitsValN (str "2") : ℤ) + (digitsValN (str "0") : ℤ))),
      parseTimestampMs ((genMatch xmlB).getD [])⟩ ∧
    statsFields ⟨some (digitsValN (str "8")), some (digitsValN (str "2")),
      some (digitsValN (str "0")),
      some (codeRate (digitsValN (str "8"))
        ((digitsValN (str "8") : ℤ) + (digitsValN (str "2") : ℤ) + (digitsValN (str "0") : ℤ))),
      parseTimestampMs ((genMatch xmlB).getD [])⟩ =
      [⟨str "*Passed:*", optIntStr (some (digitsValN (str "8"))), true⟩,
       ⟨str "*Failed:*", optIntStr (some (digitsValN (str "2"))), true⟩,
       ⟨str "*Skipped:*", optIntStr (some (digitsValN (str "0"))), true⟩,
       ⟨str "*Success Rate:*",
         optIntStr (some (codeRate (digitsValN (str "8"))
           ((digitsValN (str "8") : ℤ) + (digitsValN (str "2") : ℤ) +
             (digitsValN (str "0") : ℤ)))) ++ str "%", true⟩]) :=
  ⟨by decide, by decide, by decide, by decide, by decide, by decide, by decide,
    C2_extraction xmlB xmlB (str "8") (str "2") (str "0") (by decide) (by decide) (by decide)
      (by decide) (by decide) (by decide) (by decide) (by decide) (by decide)⟩

/-- Claim C3 (code behavior at the failing input): on the all-zero record
`getStats` does not fail with an empty-result-set error; it returns a
`Stats` whose counts are 0,0,0 (violating the `passed+failed+skipped ≥ 1`
invariant) and whose `successRate` is `NaN`. -/
theorem C3_zero_counts_behavior :
    getStats xmlZero = .ok ⟨some 0, some 0, some 0, none, none⟩ ∧
    ¬(1 ≤ (0 : ℤ) + 0 + 0) := by
  decide

/-- Claim C4 (counterexample): the empty report text contains no summary
record, yet the run does not fail: the empty string is falsy in JS, so it is
routed to the no-output branch and (with the switch off) is silently
skipped. -/
theorem C4_counterexample :
    statLineMatch ([] : List Char) = none ∧
    run (some []) cfg0 5 = .noMessage ∧
    (∀ m, RunOutcome.noMessage ≠ RunOutcome.failed m) :=
  ⟨by decide, by decide, fun m hcon => RunOutcome.noConfusion hcon⟩

/-- Claim C4 (amended): any nonempty report text in which the summary-record
pattern finds no match makes the run fail with the extraction error message,
never a silent skip. -/
theorem C4_no_stat_record (xml : List Char) (cfg : Config) (n : ℕ)
    (hne : xml ≠ []) (h : statLineMatch xml = none) :
    run (some xml) cfg n = .failed (str "Error getting stats from XML") := by
  simp only [run]
  rw [if_neg hne]
  simp only [getStats, h]
  rfl

/-- Claim C4 (witness): a nonempty document with other content (even the
words `All Tests`) but no summary record makes the run fail. -/
theorem C4_no_stat_record_witness :
    xmlNoStat ≠ [] ∧
    statLineMatch xmlNoStat = none ∧
    run (some xmlNoStat) cfg0 3 = .failed (str "Error getting stats from XML") :=
  ⟨by decide, by decide, C4_no_stat_record xmlNoStat cfg0 3 (by decide) (by decide)⟩

/-- Claim C5: when one of the three named attributes is absent from the
summary record (the earlier ones being present), the run fails with the
error message naming that attribute. -/
theorem C5_missing_attribute (xml r : List Char) (cfg : Config) (n : ℕ)
    (hline : statLineMatch xml = some r) :
    (getArg r (str "pass") = none →
      run (some xml) cfg n = .failed (str "Error getting pass from XML")) ∧
    (∀ vp, getArg r (str "pass") = some vp → getArg r (str "fail") = none →
      run (some xml) cfg n = .failed (str "Error getting fail from XML")) ∧
    (∀ vp vf, getArg r (str "pass") = some vp → getArg r (str "fail") = some vf →
      getArg r (str "skip") = none →
      run (some xml) cfg n = .failed (str "Error getting skip from XML")) := by
  have hne := statLine_ne_nil hline
  refine ⟨fun hp => ?_, fun vp hp hf => ?_, fun vp vf hp hf hs => ?_⟩
  · simp only [run]
    rw [if_neg hne]
    simp only [getStats, hline, hp]
    rfl
  · simp only [run]
    rw [if_neg hne]
    simp only [getStats, hline, hp, hf]
    rfl
  · simp only [run]
    rw [if_neg hne]
    simp only [getStats, hline, hp, hf, hs]
    rfl

/-- Claim C5 (witness): scenario D — a record missing the `fail` attribute
fails with the message naming `fail`. -/
theorem C5_missing_attribute_witness :
    (statLineMatch xmlMissFail = some xmlMissFail) ∧
    (getArg xmlMissFail (str "pass") = some (str "10")) ∧
    (getArg xmlMissFail (str "fail") = none) ∧
    run (some xmlMissFail) cfg0 4 = .failed (str "Error getting fail from XML") :=
  ⟨by decide, by decide, by decide,
    (C5_missing_attribute xmlMissFail xmlMissFail cfg0 4 (by decide)).2.1
      (str "10") (by decide) (by decide)⟩

/-- Claim C6 (counterexample): a reachable `Stats` with `successRate` 250
(from a record with a negative fail count) is colored amber by the code,
although 250 is not strictly between 80 and 100, so the claim's "red
otherwise" clause fails. -/
theorem C6_counterexample :
    getStats xmlNeg = .ok ⟨some 5, some (-3), some 0, some 250, none⟩ ∧
    getColor ⟨some 5, some (-3), some 0, some 250, none⟩ = str "#ECB22E" ∧
    ¬((80 : ℤ) < 250 ∧ (250 : ℤ) < 100) ∧
    str "#ECB22E" ≠ str "#E01E5A" := by
  decide

/-- Claim C6 (amended): the color is green exactly when `successRate` is
100, amber exactly when it is a number above 80 other than 100, and red
otherwise (in particular at exactly 80 and at `NaN`). -/
theorem C6_color_bands (st : Stats) :
    (getColor st = str "#2EB67D" ↔ st.successRate = some 100) ∧
    (getColor st = str "#ECB22E" ↔
      st.successRate ≠ some 100 ∧ jsGtB st.successRate 80 = true) ∧
    (getColor st = str "#E01E5A" ↔
      st.successRate ≠ some 100 ∧ jsGtB st.successRate 80 = false) := by
  unfold getColor
  by_cases h1 : st.successRate = some 100
  · rw [if_pos h1]
    refine ⟨⟨fun _ => h1, fun _ => rfl⟩,
      ⟨fun hco => absurd hco (by decide), fun hc => absurd h1 hc.1⟩,
      ⟨fun hco => absurd hco (by decide), fun hc => absurd h1 hc.1⟩⟩
  · rw [if_neg h1]
    by_cases h2 : jsGtB st.successRate 80 = true
    · rw [if_pos h2]
      refine ⟨⟨fun hco => absurd hco (by decide), fun hh => absurd hh h1⟩,
        ⟨fun _ => ⟨h1, h2⟩, fun _ => rfl⟩,
        ⟨fun hco => absurd hco (by decide), fun hc => by rw [hc.2] at h2; exact absurd h2 (by simp)⟩⟩
    · rw [if_neg h2]
      refine ⟨⟨fun hco => absurd hco (by decide), fun hh => absurd hh h1⟩,
        ⟨fun hco => absurd hco (by decide), fun hc => absurd hc.2 h2⟩,
        ⟨fun _ => ⟨h1, Bool.not_eq_true _ ▸ h2⟩, fun _ => rfl⟩⟩

/-- Claim C7 (counterexample): with no `generated` attribute, extraction
succeeds but the timestamp is the `NaN` invalid instant, not the zero/epoch
instant. -/
theorem C7_counterexample :
    getStats xmlNoGen = .ok ⟨some 1, some 0, some 0, some 100, none⟩ ∧
    (none : Option ℤ) ≠ some 0 := by
  decide

/-- Claim C7 (amended): when the `generated` attribute is absent or does not
parse, extraction still succeeds (no exception) and the resulting timestamp
is the `NaN` invalid instant. -/
theorem C7_timestamp_nan (xml r vp vf vs : List Char)
    (hline : statLineMatch xml = some r)
    (hp : getArg r (str "pass") = some vp)
    (hf : getArg r (str "fail") = some vf)
    (hs : getArg r (str "skip") = some vs)
    (hts : parseTimestampMs ((genMatch xml).getD []) = none) :
    getStats xml = .ok ⟨jsParseInt vp, jsParseInt vf, jsParseInt vs,
      toFixed1ParseInt (jsMulFl (jsDivFl (jsParseInt vp)
        (jsAddI (jsAddI (jsParseInt vp) (jsParseInt vf)) (jsParseInt vs))) 100), none⟩ := by
  simp only [getStats, hline, hp, hf, hs, hts]

/-- Claim C7 (witness): the amended statement at a report whose `generated`
attribute is the unparsable `yesterday`. -/
theorem C7_timestamp_nan_witness :
    (statLineMatch xmlBadTs = some (str "<stat pass=\"1\" fail=\"0\" skip=\"0\">All Tests</stat>")) ∧
    (getArg (str "<stat pass=\"1\" fail=\"0\" skip=\"0\">All Tests</stat>") (str "pass") = some (str "1")) ∧
    (parseTimestampMs ((genMatch xmlBadTs).getD []) = none) ∧
    getStats xmlBadTs = .ok ⟨jsParseInt (str "1"), jsParseInt (str "0"), jsParseInt (str "0"),
      toFixed1ParseInt (jsMulFl (jsDivFl (jsParseInt (str "1"))
        (jsAddI (jsAddI (jsParseInt (str "1")) (jsParseInt (str "0")))
          (jsParseInt (str "0")))) 100), none⟩ :=
  ⟨by decide, by decide, by decide,
    C7_timestamp_nan xmlBadTs (str "<stat pass=\"1\" fail=\"0\" skip=\"0\">All Tests</stat>")
      (str "1") (str "0") (str "0") (by decide) (by decide) (by decide) (by decide) (by decide)⟩

/-- Claim C8 (counterexample): two records that are permutations of the same
attribute set extract different pass counts, because the lookbehind for
`pass="` also matches inside the attribute named `xpass`. -/
theorem C8_counterexample :
    l1shadow.Perm l2shadow ∧
    getArg (mkStatLine l1shadow) (str "pass") = some (str "7") ∧
    getArg (mkStatLine l2shadow) (str "pass") = some (str "10") ∧
    getStats (mkStatLine l1shadow) = .ok ⟨some 7, some 0, some 0, some 100, none⟩ ∧
    getStats (mkStatLine l2shadow) = .ok ⟨some 10, some 0, some 0, some 100, none⟩ ∧
    (some (7 : ℤ)) ≠ some 10 := by
  decide

/-- Claim C8 (amended): extraction is order-insensitive for records in which
each of the patterns `pass="`, `fail="`, `skip="` matches at exactly one
position: any two serialized permutations of such an attribute set extract
the same three values. -/
theorem C8_order_insensitive (l1 l2 : List Attr) (vp vf vs : List Char)
    (hperm : l1.Perm l2)
    (hp1 : (⟨str "pass", vp⟩ : Attr) ∈ l1)
    (hf1 : (⟨str "fail", vf⟩ : Attr) ∈ l1)
    (hs1 : (⟨str "skip", vs⟩ : Attr) ∈ l1)
    (hwp : wfVal vp) (hwf : wfVal vf) (hws : wfVal vs)
    (hu1p : (lbPositions (mkStatLine l1) (str "pass" ++ str "=\"")).length = 1)
    (hu1f : (lbPositions (mkStatLine l1) (str "fail" ++ str "=\"")).length = 1)
    (hu1s : (lbPositions (mkStatLine l1) (str "skip" ++ str "=\"")).length = 1)
    (hu2p : (lbPositions (mkStatLine l2) (str "pass" ++ str "=\"")).length = 1)
    (hu2f : (lbPositions (mkStatLine l2) (str "fail" ++ str "=\"")).length = 1)
    (hu2s : (lbPositions (mkStatLine l2) (str "skip" ++ str "=\"")).length = 1) :
    getArg (mkStatLine l1) (str "pass") = some vp ∧
    getArg (mkStatLine l2) (str "pass") = some vp ∧
    getArg (mkStatLine l1) (str "fail") = some vf ∧
    getArg (mkStatLine l2) (str "fail") = some vf ∧
    getArg (mkStatLine l1) (str "skip") = some vs ∧
    getArg (mkStatLine l2) (str "skip") = some vs :=
  ⟨getArg_mkStatLine l1 _ _ hp1 hwp hu1p,
   getArg_mkStatLine l2 _ _ (hperm.mem_iff.mp hp1) hwp hu2p,
   getArg_mkStatLine l1 _ _ hf1 hwf hu1f,
   getArg_mkStatLine l2 _ _ (hperm.mem_iff.mp hf1) hwf hu2f,
   getArg_mkStatLine l1 _ _ hs1 hws hu1s,
   getArg_mkStatLine l2 _ _ (hperm.mem_iff.mp hs1) hws hu2s⟩

/-- Claim C8 (witness): the amended statement at a concrete permutation pair
with an extra benign attribute. -/
theorem C8_order_insensitive_witness :
    l1perm.Perm l2perm ∧
    ((⟨str "pass", str "10"⟩ : Attr) ∈ l1perm) ∧
    (lbPositions (mkStatLine l1perm) (str "pass" ++ str "=\"")).length = 1 ∧
    (getArg (mkStatLine l1perm) (str "pass") = some (str "10") ∧
     getArg (mkStatLine l2perm) (str "pass") = some (str "10") ∧
     getArg (mkStatLine l1perm) (str "fail") = some (str "2") ∧
     getArg (mkStatLine l2perm) (str "fail") = some (str "2") ∧
     getArg (mkStatLine l1perm) (str "skip") = some (str "3") ∧
     getArg (mkStatLine l2perm) (str "skip") = some (str "3")) :=
  ⟨by decide, by decide, by decide,
    C8_order_insensitive l1perm l2perm (str "10") (str "2") (str "3")
      (by decide) (by decide) (by decide) (by decide) (by decide) (by decide) (by decide)
      (by decide) (by decide) (by decide) (by decide) (by decide) (by decide)⟩

/-- Claim C9: when the report file is absent or unreadable, the run sends
the fallback message (with no attachments) exactly when the no-output alert
switch is on, otherwise sends nothing; in either case it never fails. -/
theorem C9_no_report (cfg : Config) (n : ℕ) :
    run none cfg n = (if cfg.alertChannelOnNoOutput then
      .sent ⟨cfg.slackChannel, cfg.slackUsername, cfg.slackIcon, cfg.noOutputFoundMessage, []⟩
      else .noMessage) ∧
    ∀ m, run none cfg n ≠ .failed m := by
  constructor
  · cases h : cfg.alertChannelOnNoOutput <;> simp [run, sendSlackMessage, h]
  · intro m
    cases h : cfg.alertChannelOnNoOutput <;> simp [run, sendSlackMessage, h]

